import Mathlib

/-!
# Verification of the sitemap-site crawling core

Shallow embedding of the crawling engine of the `sitemap-site` repository
(`src/backend/utils/htmlBuilder.js`, with the twin implementation in
`src/backend/utils/intelligentCrawler.js`), together with proofs of the
frozen claims about it.

The JavaScript code is translated function by function:

* `normalizeUrl` (htmlBuilder.js lines 179-186) over a model of the WHATWG
  URL parser (`parseUrl`) covering hierarchical `scheme://host/path?q#f`
  URLs (no userinfo) and opaque-path URLs such as `mailto:x`, with the
  origin serialized as `scheme://host` for the special schemes and as the
  string `"null"` otherwise, exactly as the JS `origin` getter does;
* `getErrorType` / `shouldNotRetry` (lines 191-221) over a model of the
  Node.js error object (`code`, `message`, `response.status`);
* `fetchWithAxios` (lines 387-430): the retry loop, instrumented to count
  attempts and record backoff delays; the per-attempt network outcome is an
  oracle `Nat → Except JsError LightResult`;
* `needsJavaScriptRendering` / `smartCrawl` (lines 233-260, 478-507): the
  fetch dispatcher; the cheerio body-text extraction is an oracle
  `String → String`;
* `crawlWithPuppeteer` (lines 270-377): control flow of the try/catch/finally
  with the browser steps as oracles, instrumented with page/browser
  open-close flags;
* `recursiveCrawl` / the child loop (lines 516-598) and `startSafeCrawl`
  (lines 608-673): the engine, with `smartCrawl` abstracted as a per-URL
  outcome oracle (either a result or a thrown exception), the entry
  point's `puppeteer.launch` / `browser.close` outcomes as oracles whose
  rejections the catch block rethrows, and the state
  (visited set, results array) passed explicitly.  A ghost event trace
  records every dispatched fetch (with its key, depth, visited-set size at
  dispatch time and ghost parent) and every politeness wait, so that the
  dispatch-ordering claims can be stated.  A fuel argument makes the
  recursion structural; in the JavaScript the recursion terminates through
  the depth guard, and every theorem below holds for every fuel value.
-/

set_option autoImplicit false
set_option maxRecDepth 16000

namespace SitemapSite

/-! ## URL parser model and `normalizeUrl` -/

/-- Parsed URL, fields kept as character lists.  Models the result of
JavaScript `new URL(url)`.  `host = some h` for URLs with a `//` authority
(`scheme://host[:port]/path[?query][#fragment]`, no userinfo); `host = none`
for opaque-path URLs (`mailto:x`, `data:...`).  Host case and default-port
elision are not modelled, and special schemes are modelled only in their
canonical `scheme://` spelling — adequate for every URL appearing in the
claims and in the crawler's own construction. -/
structure ParsedUrl where
  scheme : List Char
  host : Option (List Char)
  pathname : List Char
  query : Option (List Char)
  fragment : Option (List Char)
deriving Repr, DecidableEq

/-- The WHATWG special schemes whose origin serializes as
`scheme://host` rather than `"null"`.  `file` is special for parsing but
its origin still serializes as `"null"`, so it is deliberately absent. -/
def specialSchemes : List (List Char) :=
  ["http".data, "https".data, "ws".data, "wss".data, "ftp".data]

def isSpecialScheme (scheme : List Char) : Bool :=
  decide (scheme.map Char.toLower ∈ specialSchemes)

/-- `origin` of a parsed URL, as the JavaScript `parsedUrl.origin` getter
serializes it: `scheme://host` for the special hierarchical schemes, the
literal string `"null"` for everything else (opaque-path URLs, `file:`
URLs, non-special schemes). -/
def ParsedUrl.originChars (p : ParsedUrl) : List Char :=
  match p.host with
  | some h => if isSpecialScheme p.scheme then p.scheme ++ [':', '/', '/'] ++ h else "null".data
  | none => "null".data

def ParsedUrl.origin (p : ParsedUrl) : String :=
  String.mk p.originChars

/-- Take the prefix up to (excluding) the first character in `stops`;
return it together with the remainder (which starts with the stop
character, when one was found). -/
def breakAt (stops : List Char) : List Char → List Char × List Char
  | [] => ([], [])
  | c :: cs =>
    if c ∈ stops then ([], c :: cs)
    else
      let p := breakAt stops cs
      (c :: p.1, p.2)

/-- Characters allowed in a URL scheme after the initial letter. -/
def isSchemeChar (c : Char) : Bool :=
  c.isAlpha || c.isDigit || c == '+' || c == '-' || c == '.'

/-- Split the part after the path into query and fragment, mirroring the
`?query#fragment` grammar. -/
def splitQueryFragment (cs : List Char) : Option (List Char) × Option (List Char) :=
  match cs with
  | [] => (none, none)
  | '#' :: fs => (none, some fs)
  | '?' :: qs =>
    let p := breakAt ['#'] qs
    match p.2 with
    | '#' :: fs => (some p.1, some fs)
    | _ => (some p.1, none)
  | _ => (none, none)

/-- Model of JavaScript `new URL(url)`: `none` models the constructor
throwing.  The input is split at its first `':'`; the scheme must start
with a letter and continue with scheme characters.  When the rest starts
with `"//"` the URL is hierarchical: the authority runs to the first
`/?#`, it must be non-empty for the special schemes (http, https, …; it
may be empty for `file://` and non-special schemes), and an empty path
reads back as `"/"` for special schemes, exactly as in the WHATWG parser.
Otherwise the URL has an opaque path (`mailto:x`): no host, the path taken
verbatim up to `?` or `#`.  (A special scheme in non-canonical spelling,
such as `http:example.com`, is outside the modelled input class and
returns `none`.) -/
def parseUrl (url : String) : Option ParsedUrl :=
  match breakAt [':'] url.data with
  | (schemeCs, ':' :: rest) =>
    match schemeCs with
    | [] => none
    | c0 :: crest =>
      if c0.isAlpha && crest.all isSchemeChar then
        match rest with
        | '/' :: '/' :: rest2 =>
          let pAuth := breakAt ['/', '?', '#'] rest2
          if isSpecialScheme schemeCs ∧ pAuth.1 = [] then none
          else
            let pPath := breakAt ['?', '#'] pAuth.2
            let qf := splitQueryFragment pPath.2
            some { scheme := schemeCs
                   host := some pAuth.1
                   pathname := if isSpecialScheme schemeCs ∧ pPath.1 = [] then ['/'] else pPath.1
                   query := qf.1
                   fragment := qf.2 }
        | _ =>
          if isSpecialScheme schemeCs then none
          else
            let pPath := breakAt ['?', '#'] rest
            let qf := splitQueryFragment pPath.2
            some { scheme := schemeCs
                   host := none
                   pathname := pPath.1
                   query := qf.1
                   fragment := qf.2 }
      else none
  | _ => none

/-- The JavaScript `pathname.replace(/\/$/, '')`: remove one trailing
slash, if present. -/
def stripOneTrailingSlash (cs : List Char) : List Char :=
  if cs.getLast? = some '/' then cs.dropLast else cs

/-- `normalizeUrl` from htmlBuilder.js lines 179-186 (identical in
intelligentCrawler.js lines 39-47):
```js
function normalizeUrl(url) {
    try {
        const parsedUrl = new URL(url);
        return parsedUrl.origin + parsedUrl.pathname.replace(/\/$/, '');
    } catch (e) {
        return null;
    }
}
``` -/
def normalizeUrl (url : String) : Option String :=
  match parseUrl url with
  | some p => some (String.mk (p.originChars ++ stripOneTrailingSlash p.pathname))
  | none => none

/-! ### Lemmas about the URL parser -/

theorem breakAt_spec (stops : List Char) (cs : List Char) :
    cs = (breakAt stops cs).1 ++ (breakAt stops cs).2 ∧
    (∀ c ∈ (breakAt stops cs).1, c ∉ stops) ∧
    ((breakAt stops cs).2 = [] ∨
      ∃ c cs', (breakAt stops cs).2 = c :: cs' ∧ c ∈ stops) := by
  induction cs with
  | nil => simp [breakAt]
  | cons c cs ih =>
    by_cases hc : c ∈ stops
    · refine ⟨by simp [breakAt, hc], by simp [breakAt, hc], Or.inr ?_⟩
      exact ⟨c, cs, by simp [breakAt, hc], hc⟩
    · obtain ⟨h1, h2, h3⟩ := ih
      refine ⟨?_, ?_, ?_⟩
      · simpa [breakAt, hc] using h1
      · simpa [breakAt, hc] using fun _ h => h2 _ h
      · simpa [breakAt, hc] using h3

theorem breakAt_append (stops : List Char) (xs ys : List Char)
    (hxs : ∀ c ∈ xs, c ∉ stops)
    (hys : ys = [] ∨ ∃ c cs', ys = c :: cs' ∧ c ∈ stops) :
    breakAt stops (xs ++ ys) = (xs, ys) := by
  induction xs with
  | nil =>
    rcases hys with h | ⟨c, cs', rfl, hc⟩
    · simp [h, breakAt]
    · simp [breakAt, hc]
  | cons x xs ih =>
    have hx : x ∉ stops := hxs x (by simp)
    have := ih fun c hc => hxs c (by simp [hc])
    simp [breakAt, hx, this]

theorem alpha_ne_colon {c : Char} (h : c.isAlpha = true) : c ≠ ':' := by
  rintro rfl; simp at h

theorem schemeChar_ne_colon {c : Char} (h : isSchemeChar c = true) : c ≠ ':' := by
  rintro rfl; simp [isSchemeChar] at h

/-- Everything `parseUrl` can emit *with a special scheme* is a well-formed
hierarchical URL: the scheme starts with a letter and continues with scheme
characters, the host is present, non-empty and free of `/?#`, and the
pathname starts with `/` and is free of `?#`. -/
theorem parseUrl_facts (u : String) (p : ParsedUrl) (h : parseUrl u = some p)
    (hsp : isSpecialScheme p.scheme = true) :
    (∃ c0 crest, p.scheme = c0 :: crest ∧ c0.isAlpha = true ∧
        crest.all isSchemeChar = true) ∧
    (∃ hcs, p.host = some hcs ∧ hcs ≠ [] ∧
      ∀ c ∈ hcs, c ∉ (['/', '?', '#'] : List Char)) ∧
    (∀ c ∈ p.pathname, c ∉ (['?', '#'] : List Char)) ∧
    (p.pathname = ['/'] ∨ ∃ rest, p.pathname = '/' :: rest) := by
  simp only [parseUrl] at h
  split at h
  swap
  · exact absurd h (by simp)
  next schemeCs rest heq =>
  split at h
  · exact absurd h (by simp)
  next c0 crest =>
  split at h
  swap
  · exact absurd h (by simp)
  next hval =>
  split at h
  next rest2 =>
    split at h
    · exact absurd h (by simp)
    next hne =>
    rw [Option.some.injEq] at h
    obtain ⟨ha1, ha2, ha3⟩ := breakAt_spec ['/', '?', '#'] rest2
    obtain ⟨hp1, hp2, hp3⟩ := breakAt_spec ['?', '#'] (breakAt ['/', '?', '#'] rest2).2
    subst h
    have hsp' : isSpecialScheme (c0 :: crest) = true := hsp
    constructor
    · exact ⟨c0, crest, rfl, (Bool.and_eq_true _ _ ▸ hval).1,
        (Bool.and_eq_true _ _ ▸ hval).2⟩
    refine ⟨⟨(breakAt ['/', '?', '#'] rest2).1, rfl, ?_, ha2⟩, ?_, ?_⟩
    · intro hempty
      exact hne ⟨hsp', hempty⟩
    · intro c hc
      by_cases hcond : isSpecialScheme (c0 :: crest) = true ∧
          (breakAt ['?', '#'] (breakAt ['/', '?', '#'] rest2).2).1 = []
      · rw [if_pos hcond] at hc
        simp only [List.mem_singleton] at hc
        simp [hc]
      · rw [if_neg hcond] at hc
        exact hp2 c hc
    · by_cases hcond : isSpecialScheme (c0 :: crest) = true ∧
          (breakAt ['?', '#'] (breakAt ['/', '?', '#'] rest2).2).1 = []
      · rw [if_pos hcond]; exact Or.inl rfl
      · have hempty : (breakAt ['?', '#'] (breakAt ['/', '?', '#'] rest2).2).1 ≠ [] := by
          intro he; exact hcond ⟨hsp', he⟩
        rw [if_neg hcond]
        refine Or.inr ?_
        rcases ha3 with h0 | ⟨c, cs', heq2, hc⟩
        · rw [h0] at hempty; simp [breakAt] at hempty
        rcases (show c = '/' ∨ c = '?' ∨ c = '#' by simpa using hc) with rfl | rfl | rfl
        · have hsplit : (breakAt ['?', '#'] ('/' :: cs')).1 =
              '/' :: (breakAt ['?', '#'] cs').1 := by simp [breakAt]
          rw [heq2, hsplit]
          exact ⟨_, rfl⟩
        · rw [heq2] at hempty; simp [breakAt] at hempty
        · rw [heq2] at hempty; simp [breakAt] at hempty
  next hrest =>
    split at h
    · exact absurd h (by simp)
    next hnospec =>
    rw [Option.some.injEq] at h
    subst h
    exact absurd hsp hnospec

/-- Re-parsing a well-formed `scheme://host ++ path` string recovers its
parts. -/
theorem parseUrl_reassemble (scheme hostCs path' : List Char)
    (hscheme : ∃ c0 crest, scheme = c0 :: crest ∧ c0.isAlpha = true ∧
        crest.all isSchemeChar = true)
    (hhost : hostCs ≠ []) (hhostc : ∀ c ∈ hostCs, c ∉ (['/', '?', '#'] : List Char))
    (hpathc : ∀ c ∈ path', c ∉ (['?', '#'] : List Char))
    (hpath : path' = [] ∨ ∃ rest, path' = '/' :: rest) :
    parseUrl (String.mk (scheme ++ [':', '/', '/'] ++ hostCs ++ path')) =
      some { scheme := scheme, host := some hostCs,
             pathname := if isSpecialScheme scheme ∧ path' = [] then ['/'] else path',
             query := none, fragment := none } := by
  obtain ⟨c0, crest, rfl, hc0, hcrest⟩ := hscheme
  have hschemeColon : ∀ c ∈ c0 :: crest, c ∉ ([':'] : List Char) := by
    intro c hc hmem
    simp only [List.mem_singleton] at hmem
    subst hmem
    rcases List.mem_cons.mp hc with heq | htail
    · rw [← heq] at hc0; exact absurd hc0 (by decide)
    · have hall := (List.all_eq_true.mp hcrest) _ htail
      exact absurd hall (by decide)
  have hassoc : (c0 :: crest) ++ [':', '/', '/'] ++ hostCs ++ path' =
      (c0 :: crest) ++ (':' :: '/' :: '/' :: (hostCs ++ path')) := by
    simp
  have hbreak1 : breakAt [':'] ((c0 :: crest) ++ (':' :: '/' :: '/' :: (hostCs ++ path'))) =
      (c0 :: crest, ':' :: '/' :: '/' :: (hostCs ++ path')) :=
    breakAt_append _ _ _ hschemeColon (Or.inr ⟨':', _, rfl, by simp⟩)
  have hbreak2 : breakAt ['/', '?', '#'] (hostCs ++ path') = (hostCs, path') := by
    refine breakAt_append _ _ _ hhostc ?_
    rcases hpath with rfl | ⟨rest, rfl⟩
    · exact Or.inl rfl
    · exact Or.inr ⟨'/', rest, rfl, by simp⟩
  have hbreak3 : breakAt ['?', '#'] path' = (path', []) := by
    have := breakAt_append ['?', '#'] path' [] hpathc (Or.inl rfl)
    simpa using this
  simp only [parseUrl]
  rw [hassoc, hbreak1]
  simp only [hbreak2, hbreak3]
  rw [if_pos (show (c0.isAlpha && crest.all isSchemeChar) = true by simp [hc0, hcrest])]
  rw [if_neg (by simp [hhost])]
  rfl

/-- The characters of `stripOneTrailingSlash cs` are among those of `cs`. -/
theorem stripOneTrailingSlash_subset (cs : List Char) :
    ∀ c ∈ stripOneTrailingSlash cs, c ∈ cs := by
  intro c hc
  unfold stripOneTrailingSlash at hc
  split at hc
  · exact List.dropLast_subset _ hc
  · exact hc

theorem stripOneTrailingSlash_shape (cs : List Char)
    (h : cs = ['/'] ∨ ∃ rest, cs = '/' :: rest) :
    stripOneTrailingSlash cs = [] ∨ ∃ rest, stripOneTrailingSlash cs = '/' :: rest := by
  rcases h with rfl | ⟨rest, rfl⟩
  · exact Or.inl (by simp [stripOneTrailingSlash])
  · unfold stripOneTrailingSlash
    split
    · rcases rest with _ | ⟨b, bs⟩
      · exact Or.inl (by simp)
      · exact Or.inr ⟨(b :: bs).dropLast, by simp⟩
    · exact Or.inr ⟨rest, rfl⟩

theorem stripOneTrailingSlash_of_not_slash (cs : List Char)
    (h : cs.getLast? ≠ some '/') : stripOneTrailingSlash cs = cs := by
  unfold stripOneTrailingSlash
  rw [if_neg h]

/-! ### Claim C3 -/

/-- **C3.**  For every input string, `normalizeUrl` returns the URL's
origin concatenated with its path with any trailing slash removed —
discarding query string and fragment, which never reach the output — and
returns `null` (modelled as `none`, never a thrown exception) on
unparseable input.  In particular `https://a.com/x/`, `https://a.com/x?ref=1`
and `https://a.com/x#section` all normalize to `https://a.com/x`. -/
theorem claim_C3 :
    (∀ u, parseUrl u = none → normalizeUrl u = none) ∧
    (∀ u p, parseUrl u = some p →
      normalizeUrl u = some (String.mk (p.originChars ++ stripOneTrailingSlash p.pathname))) ∧
    normalizeUrl "https://a.com/x/" = some "https://a.com/x" ∧
    normalizeUrl "https://a.com/x?ref=1" = some "https://a.com/x" ∧
    normalizeUrl "https://a.com/x#section" = some "https://a.com/x" := by
  refine ⟨?_, ?_, by decide, by decide, by decide⟩
  · intro u h; simp [normalizeUrl, h]
  · intro u p h; simp [normalizeUrl, h]

/-- Witness for C3: the unparseable branch at `"nonsense"` and the
origin-plus-path branch at `"https://a.com/x/"`. -/
theorem claim_C3_witness :
    normalizeUrl "nonsense" = none ∧
    normalizeUrl "https://a.com/x/" =
      some (String.mk (ParsedUrl.originChars
          ⟨"https".data, some "a.com".data, "/x/".data, none, none⟩ ++
        stripOneTrailingSlash "/x/".data)) :=
  ⟨claim_C3.1 "nonsense" (by decide),
   claim_C3.2.1 "https://a.com/x/" ⟨"https".data, some "a.com".data, "/x/".data, none, none⟩
     (by decide)⟩

/-! ### Claim C10 -/

/-- **C10, counterexample.**  `normalizeUrl` is *not* idempotent, in two
ways.  (1) The regex `/\/$/` removes a single trailing slash, so on
`https://a.com/x//` it returns the key `https://a.com/x/`, and applying it
to that key strips one more slash and yields a different key.  (2) For a
URL whose origin serializes as the string `"null"` — opaque-path URLs such
as `mailto:x` (which do occur in a page's link stream) — the key is
`"null" + path`, e.g. `nullx`, and that key does not parse at all, so a
second application returns `null` instead of the key. -/
theorem claim_C10_counterexample :
    normalizeUrl "https://a.com/x//" = some "https://a.com/x/" ∧
    normalizeUrl "https://a.com/x/" = some "https://a.com/x" ∧
    ("https://a.com/x" : String) ≠ "https://a.com/x/" ∧
    normalizeUrl "mailto:x" = some "nullx" ∧
    normalizeUrl "nullx" = none := by
  refine ⟨by decide, by decide, by decide, by decide, by decide⟩

/-- **C10, amended.**  `normalizeUrl` is idempotent exactly on the keys the
crawler actually dedups on: for every URL that parses with a special
hierarchical scheme (http, https, … — the schemes whose origin serializes
as `scheme://host` rather than `"null"`) and whose key does not end in
`'/'`, a second application returns the key unchanged.  It is not
idempotent when the URL's path has two or more trailing slashes (one slash
is stripped per application), nor on URLs with a `"null"` origin, whose
keys do not re-parse. -/
theorem claim_C10 (u k : String) (p : ParsedUrl)
    (hp : parseUrl u = some p)
    (hspecial : isSpecialScheme p.scheme = true)
    (h : normalizeUrl u = some k)
    (hk : k.data.getLast? ≠ some '/') : normalizeUrl k = some k := by
  obtain ⟨hscheme, ⟨hcs, hhost, hne, hhostc⟩, hpathc, hpathshape⟩ :=
    parseUrl_facts u p hp hspecial
  have hk' : k = String.mk (p.originChars ++ stripOneTrailingSlash p.pathname) := by
    unfold normalizeUrl at h
    rw [hp] at h
    exact (Option.some.injEq _ _ ▸ h).symm
  have horigin : p.originChars = p.scheme ++ [':', '/', '/'] ++ hcs := by
    unfold ParsedUrl.originChars
    rw [hhost]
    simp [hspecial]
  have hre := parseUrl_reassemble p.scheme hcs (stripOneTrailingSlash p.pathname)
    hscheme hne hhostc
    (fun c hc => hpathc c (stripOneTrailingSlash_subset _ c hc))
    (stripOneTrailingSlash_shape _ hpathshape)
  have hkeq : String.mk (p.scheme ++ [':', '/', '/'] ++ hcs ++
      stripOneTrailingSlash p.pathname) = k := by
    rw [hk', horigin]
  rw [hkeq] at hre
  rcases stripOneTrailingSlash_shape p.pathname hpathshape with hnil | ⟨rest, hcons⟩
  · rw [hnil, if_pos ⟨hspecial, rfl⟩] at hre
    unfold normalizeUrl
    rw [hre]
    dsimp only
    rw [hk', horigin, hnil]
    simp [ParsedUrl.originChars, hspecial, stripOneTrailingSlash]
  · rw [if_neg (by rw [hcons]; rintro ⟨_, he⟩; cases he)] at hre
    unfold normalizeUrl
    rw [hre]
    dsimp only
    have hlast : (stripOneTrailingSlash p.pathname).getLast? ≠ some '/' := by
      intro hcontra
      apply hk
      rw [hk']
      show (p.originChars ++ stripOneTrailingSlash p.pathname).getLast? = some '/'
      rw [List.getLast?_append_of_ne_nil _ (by rw [hcons]; simp)]
      exact hcontra
    rw [stripOneTrailingSlash_of_not_slash _ hlast, hk', horigin]
    simp [ParsedUrl.originChars, hspecial]

/-- Witness for C10: re-normalizing the key of `https://a.com/x/`. -/
theorem claim_C10_witness : normalizeUrl "https://a.com/x" = some "https://a.com/x" :=
  claim_C10 "https://a.com/x/" "https://a.com/x"
    ⟨"https".data, some "a.com".data, "/x/".data, none, none⟩
    (by decide) (by decide) (by decide) (by decide)

/-! ## Error model and the lightweight fetcher's retry loop -/

/-- JavaScript `haystack.includes(needle)`. -/
def containsSub (haystack needle : String) : Bool :=
  decide (needle.data <:+: haystack.data)

/-- Model of the Node.js error object as the crawler inspects it:
`error.code`, `error.message`, and `error.response.status` (the `response`
field being absent is modelled as `none`). -/
structure JsError where
  code : Option String
  message : String
  responseStatus : Option Nat
deriving Repr, DecidableEq

/-- `getErrorType` from htmlBuilder.js lines 191-208 (identical in
intelligentCrawler.js lines 50-67). -/
def getErrorType (e : JsError) : String :=
  if e.code = some "EPROTO" || containsSub e.message "SSL" then "SSL_ERROR"
  else if e.code = some "ETIMEDOUT" || containsSub e.message "timeout" then "TIMEOUT"
  else if e.code = some "ECONNREFUSED" then "CONNECTION_REFUSED"
  else if e.code = some "ENOTFOUND" then "DNS_ERROR"
  else
    match e.responseStatus with
    | some s => "HTTP_" ++ toString s
    | none => "UNKNOWN_ERROR"

/-- `shouldNotRetry` from htmlBuilder.js lines 213-221 (identical in
intelligentCrawler.js lines 70-87):
```js
const noRetryErrors = ['ENOTFOUND', 'ERR_INVALID_URL'];
const noRetryStatuses = [400, 401, 403, 404, 410];
if (noRetryErrors.includes(error.code)) return true;
if (error.response && noRetryStatuses.includes(error.response.status)) return true;
return false;
``` -/
def shouldNotRetry (e : JsError) : Bool :=
  if e.code = some "ENOTFOUND" || e.code = some "ERR_INVALID_URL" then true
  else
    match e.responseStatus with
    | some s => decide (s ∈ ([400, 401, 403, 404, 410] : List Nat))
    | none => false

/-- Successful per-attempt payload of the lightweight (axios) fetcher. -/
structure LightResult where
  html : String
  statusCode : Nat
deriving Repr, DecidableEq

/-- How a run of `fetchWithAxios` can end: a returned response, a thrown
error, or the JavaScript `undefined` that falls out when the loop body
never runs (`maxRetries = 0`). -/
inductive FetchFinal where
  | success (r : LightResult)
  | thrown (e : JsError)
  | undef
deriving Repr, DecidableEq

/-- Instrumented run of the retry loop: how many attempts were made, the
backoff delays (ms) slept between consecutive attempts, and the outcome. -/
structure FetchRun where
  attempts : Nat
  delays : List Nat
  final : FetchFinal
deriving Repr, DecidableEq

/-- One iteration of the retry loop of `fetchWithAxios` (htmlBuilder.js
lines 387-430; `fetchWithRetry` in intelligentCrawler.js lines 90-127 is
the same loop).  The loop index is translated as a countdown:
`remaining = maxRetries - attempt`, so the JS guard `attempt < maxRetries`
becomes `remaining` being a successor.  The network is the oracle
`oracle attempt`; a thrown axios error is its `.error` case. -/
def fetchGo (oracle : Nat → Except JsError LightResult) : Nat → Nat → FetchRun
  | attempt, remaining =>
    match oracle attempt with
    | .ok r => ⟨1, [], .success r⟩
    | .error e =>
      if shouldNotRetry e then ⟨1, [], .thrown e⟩
      else
        match remaining with
        | 0 => ⟨1, [], .thrown e⟩
        | n + 1 =>
          let rest := fetchGo oracle (attempt + 1) n
          ⟨rest.attempts + 1, 2000 * 2 ^ (attempt - 1) :: rest.delays, rest.final⟩

/-- `fetchWithAxios(url, maxRetries)`: the loop
`for (let attempt = 1; attempt <= maxRetries; attempt++)`.
With `maxRetries = 0` the loop body never runs and the JS function returns
`undefined`. -/
def fetchWithAxios (oracle : Nat → Except JsError LightResult) (maxRetries : Nat) : FetchRun :=
  match maxRetries with
  | 0 => ⟨0, [], .undef⟩
  | m + 1 => fetchGo oracle 1 m

/-- An `ECONNREFUSED` error: retryable and transient. -/
def connRefused : JsError :=
  { code := some "ECONNREFUSED", message := "connect ECONNREFUSED 93.184.216.34:443",
    responseStatus := none }

/-- A DNS-resolution error: terminal, never retried. -/
def dnsError : JsError :=
  { code := some "ENOTFOUND", message := "getaddrinfo ENOTFOUND nosuch.example",
    responseStatus := none }

/-- A TLS/certificate error as axios raises it. -/
def sslError : JsError :=
  { code := some "EPROTO", message := "write EPROTO SSL routines:ssl3_read_bytes:sslv3 alert handshake failure",
    responseStatus := none }

/-! ### Claim C5 -/

/-- **C5, counterexample.**  The loop header is
`for (attempt = 1; attempt <= maxRetries; attempt++)`, so a URL failing
with a retryable error on every attempt is attempted exactly `maxRetries`
times — not `maxRetries + 1`: with the configured `MAX_RETRIES = 2` the
fetcher gives up after 2 attempts, not 3. -/
theorem claim_C5_counterexample :
    (fetchWithAxios (fun _ => Except.error connRefused) 2).attempts = 2 ∧
    (fetchWithAxios (fun _ => Except.error connRefused) 2).attempts ≠ 2 + 1 := by
  refine ⟨by decide, by decide⟩

theorem fetchGo_allFail (oracle : Nat → Except JsError LightResult) (err : Nat → JsError) :
    ∀ n attempt, 1 ≤ attempt →
    (∀ i, attempt ≤ i → i ≤ attempt + n → oracle i = .error (err i)) →
    (∀ i, attempt ≤ i → i ≤ attempt + n → shouldNotRetry (err i) = false) →
    fetchGo oracle attempt n =
      ⟨n + 1, (List.range n).map (fun j => 2000 * 2 ^ (attempt - 1 + j)),
        .thrown (err (attempt + n))⟩ := by
  intro n
  induction n with
  | zero =>
    intro attempt _ hfail hretry
    have h1 := hfail attempt le_rfl (by omega)
    have h2 := hretry attempt le_rfl (by omega)
    simp [fetchGo, h1, h2]
  | succ n ih =>
    intro attempt hatt hfail hretry
    have h1 := hfail attempt le_rfl (by omega)
    have h2 := hretry attempt le_rfl (by omega)
    have hrest := ih (attempt + 1) (by omega)
      (fun i hi hi' => hfail i (by omega) (by omega))
      (fun i hi hi' => hretry i (by omega) (by omega))
    simp only [fetchGo, h1, h2, Bool.false_eq_true, if_false, hrest]
    rw [FetchRun.mk.injEq]
    refine ⟨rfl, ?_, by rw [show attempt + 1 + n = attempt + (n + 1) by omega]⟩
    rw [List.range_succ_eq_map, List.map_cons, List.map_map]
    refine congrArg₂ List.cons (by norm_num) ?_
    refine List.map_congr_left fun j _ => ?_
    have hexp : attempt + 1 - 1 + j = attempt - 1 + (j + 1) := by omega
    simp only [Function.comp_apply, Nat.succ_eq_add_one, hexp]

/-- **C5, amended.**  For every URL that fails with a retryable error on
every attempt, the lightweight fetcher attempts it exactly `maxRetries`
times in total — the configured ceiling counts *all* attempts, not
`maxRetries + 1` — waiting `2000 × 2^(attempt−1)` ms between consecutive
attempts, and finally rethrows the last error. -/
theorem claim_C5 (oracle : Nat → Except JsError LightResult) (err : Nat → JsError)
    (m : Nat)
    (hfail : ∀ i, 1 ≤ i → i ≤ m + 1 → oracle i = .error (err i))
    (hretry : ∀ i, 1 ≤ i → i ≤ m + 1 → shouldNotRetry (err i) = false) :
    (fetchWithAxios oracle (m + 1)).attempts = m + 1 ∧
    (fetchWithAxios oracle (m + 1)).delays =
      (List.range m).map (fun j => 2000 * 2 ^ j) ∧
    (fetchWithAxios oracle (m + 1)).final = .thrown (err (m + 1)) := by
  have h := fetchGo_allFail oracle err m 1 le_rfl
    (fun i hi hi' => hfail i hi (by omega))
    (fun i hi hi' => hretry i hi (by omega))
  rw [show (1 : Nat) + m = m + 1 by omega] at h
  have hfw : fetchWithAxios oracle (m + 1) = fetchGo oracle 1 m := rfl
  rw [hfw, h]
  refine ⟨rfl, ?_, rfl⟩
  exact List.map_congr_left fun j _ => by norm_num

/-- Witness for C5: three attempts for `maxRetries = 3`, with backoff
delays 2000 ms and 4000 ms. -/
theorem claim_C5_witness :
    (fetchWithAxios (fun _ => Except.error connRefused) 3).attempts = 3 ∧
    (fetchWithAxios (fun _ => Except.error connRefused) 3).delays = [2000, 4000] ∧
    (fetchWithAxios (fun _ => Except.error connRefused) 3).final = .thrown connRefused := by
  have h := claim_C5 (fun _ => Except.error connRefused) (fun _ => connRefused) 2
    (fun i _ _ => rfl) (fun i _ _ => (by decide : shouldNotRetry connRefused = false))
  exact ⟨h.1, by rw [h.2.1]; decide, h.2.2⟩

/-! ### Claim C6 -/

/-- **C6, counterexample.**  A TLS/certificate error (`EPROTO`, message
mentioning SSL) is classified `SSL_ERROR` by `getErrorType`, yet
`shouldNotRetry` does not treat it as terminal — it only checks
`ENOTFOUND`, `ERR_INVALID_URL` and the five HTTP statuses — so a TLS
error *is* retried: with `maxRetries = 2` the fetcher makes 2 attempts
instead of surfacing the error after 1. -/
theorem claim_C6_counterexample :
    getErrorType sslError = "SSL_ERROR" ∧
    shouldNotRetry sslError = false ∧
    (fetchWithAxios (fun _ => Except.error sslError) 2).attempts = 2 := by
  refine ⟨by decide, by decide, by decide⟩

/-- **C6, amended.**  A fetch error is surfaced immediately without retry
if and only if its code is `ENOTFOUND` (DNS failure) or `ERR_INVALID_URL`
(malformed URL), or its HTTP status is in {400, 401, 403, 404, 410}.
TLS/certificate errors are *not* in the terminal class and are retried
like other transient errors (HTTP 5xx, connection refused, timeout,
generic network errors) up to the ceiling. -/
theorem claim_C6 :
    (∀ e, shouldNotRetry e = true ↔
      (e.code = some "ENOTFOUND" ∨ e.code = some "ERR_INVALID_URL" ∨
        ∃ s, e.responseStatus = some s ∧ s ∈ ([400, 401, 403, 404, 410] : List Nat))) ∧
    (∀ oracle m (e : JsError), oracle 1 = .error e → shouldNotRetry e = true →
      fetchWithAxios oracle (m + 1) = ⟨1, [], .thrown e⟩) ∧
    (∀ oracle m (e : JsError), (∀ i, oracle i = .error e) → shouldNotRetry e = false →
      (fetchWithAxios oracle (m + 1)).attempts = m + 1) := by
  refine ⟨?_, ?_, ?_⟩
  · intro e
    unfold shouldNotRetry
    split
    · next hcode =>
      simp only [true_iff]
      rcases Bool.or_eq_true _ _ ▸ hcode with h | h
      · exact Or.inl (by simpa using h)
      · exact Or.inr (Or.inl (by simpa using h))
    · next hcode =>
      have hc1 : e.code ≠ some "ENOTFOUND" := by
        intro h; exact hcode (by simp [h])
      have hc2 : e.code ≠ some "ERR_INVALID_URL" := by
        intro h; exact hcode (by simp [h])
      rcases hst : e.responseStatus with _ | s
      · simp [hc1, hc2, hst]
      · simp [hc1, hc2, hst]
  · intro oracle m e horacle hterm
    simp [fetchWithAxios, fetchGo, horacle, hterm]
  · intro oracle m e horacle hretry
    have h := fetchGo_allFail oracle (fun _ => e) m 1 le_rfl
      (fun i _ _ => horacle i) (fun i _ _ => hretry)
    simp [fetchWithAxios, h]

/-- Witness for C6: a DNS error is terminal and surfaced after a single
attempt; a connection-refused error is retried up to the ceiling. -/
theorem claim_C6_witness :
    shouldNotRetry dnsError = true ∧
    fetchWithAxios (fun _ => Except.error dnsError) 2 = ⟨1, [], .thrown dnsError⟩ ∧
    (fetchWithAxios (fun _ => Except.error connRefused) 3).attempts = 3 :=
  ⟨(claim_C6.1 dnsError).mpr (Or.inl rfl),
   claim_C6.2.1 (fun _ => Except.error dnsError) 1 dnsError rfl (by decide),
   claim_C6.2.2 (fun _ => Except.error connRefused) 2 connRefused (fun _ => rfl) (by decide)⟩

/-! ## The fetch dispatcher (`smartCrawl`) -/

/-- `JS_HEAVY_SITES` from htmlBuilder.js lines 136-140. -/
def JS_HEAVY_SITES : List String :=
  ["react", "vue", "angular", "next", "gatsby",
   "goibibo", "makemytrip", "booking.com",
   "airbnb", "instagram", "twitter", "facebook"]

/-- `jsIndicators` from htmlBuilder.js lines 239-245. -/
def jsIndicators : List String :=
  ["data-react", "data-reactroot", "data-reactid",
   "ng-app", "ng-controller", "ng-view",
   "v-app", "v-cloak",
   "__NEXT_DATA__",
   "gatsby"]

/-- Whitespace as JavaScript `String.prototype.trim()` strips it (ASCII). -/
def isJsSpace (c : Char) : Bool :=
  c == ' ' || c == '\t' || c == '\n' || c == '\r'

/-- JavaScript `String.prototype.toLowerCase()` (ASCII range). -/
def jsToLower (s : String) : String :=
  String.mk (s.data.map Char.toLower)

/-- JavaScript `String.prototype.trim()`. -/
def jsTrim (s : String) : String :=
  String.mk (((s.data.dropWhile isJsSpace).reverse.dropWhile isJsSpace).reverse)

/-- `needsJavaScriptRendering(url, html)` from htmlBuilder.js lines 233-260.
The cheerio body-text extraction `$('body').text()` is the oracle
`bodyText`.  Note the JS guard `if (html)`: for an *empty* html string the
function ignores the content checks entirely and falls back to the
URL-keyword heuristic. -/
def needsJavaScriptRendering (bodyText : String → String) (url : String) (html : String) : Bool :=
  let urlNeedsJS := JS_HEAVY_SITES.any (fun k => containsSub (jsToLower url) k)
  if html ≠ "" then
    let hasJsFramework := jsIndicators.any (fun ind => containsSub html ind)
    let hasMinimalContent := decide ((jsTrim (bodyText html)).length < 200)
    hasJsFramework || hasMinimalContent
  else urlNeedsJS

/-- Links and metadata extracted from HTML (`extractDataFromHtml`,
htmlBuilder.js lines 435-469); the cheerio parse itself is an oracle, the
metadata kept abstract. -/
structure ExtractData where
  links : List String
  metadata : String
deriving Repr, DecidableEq

/-- The shared result shape of `smartCrawl` / `crawlWithPuppeteer` as the
engine consumes it: success flag, rendered html, extracted links and
metadata, HTTP status (absent for puppeteer results), fetch method, and the
error message when `success = false`. -/
structure SmartResult where
  success : Bool
  html : String
  links : List String
  metadata : String
  statusCode : Option Nat
  method : String
  error : String
deriving Repr, DecidableEq

/-- The lightweight return value `{ ...axiosResult, links, metadata }` of
`smartCrawl`'s non-JS branch. -/
def lightResultOf (r : LightResult) (ex : ExtractData) : SmartResult :=
  { success := true, html := r.html, links := ex.links, metadata := ex.metadata,
    statusCode := some r.statusCode, method := "axios", error := "" }

/-- `smartCrawl` from htmlBuilder.js lines 478-507.  `axios` is the
outcome of the inner `fetchWithAxios` call (`.success` with the response,
`.thrown` when the retry loop rethrew, `.undef` for the `maxRetries = 0`
degenerate case — reading `.success` of `undefined` throws inside the
`try`, so it also falls back); `pup` is the result `crawlWithPuppeteer`
would produce for this URL. -/
def smartCrawl (bodyText : String → String) (extract : String → String → ExtractData)
    (url : String) (axios : FetchFinal) (pup : SmartResult) : SmartResult :=
  match axios with
  | .success r =>
    let ex := extract r.html url
    if needsJavaScriptRendering bodyText url r.html then pup
    else lightResultOf r ex
  | .thrown _ => pup
  | .undef => pup

/-- A recognizable stand-in for a render-fetcher result. -/
def pupProbe : SmartResult :=
  { success := true, html := "<p>rendered</p>", links := ["https://a.com/r"],
    metadata := "", statusCode := none, method := "puppeteer", error := "" }

/-! ### Claim C4 -/

/-- **C4, counterexample.**  A lightweight fetch that succeeds with an
*empty* body has body text of length 0 < 200, yet the dispatcher does
*not* invoke the render fetcher: `needsJavaScriptRendering` only applies
the framework-marker / minimal-content checks when the html string is
non-empty (JS truthiness of `if (html)`), and an empty string falls back
to the URL-keyword heuristic, which fails for `https://a.com`.  The
lightweight result is returned. -/
theorem claim_C4_counterexample :
    ((fun _ => "") : String → String) "" = "" ∧
    (jsTrim "").length < 200 ∧
    needsJavaScriptRendering (fun _ => "") "https://a.com" "" = false ∧
    smartCrawl (fun _ => "") (fun _ _ => ⟨[], ""⟩) "https://a.com"
      (.success ⟨"", 200⟩) pupProbe ≠ pupProbe := by
  refine ⟨rfl, by decide, by decide, by decide⟩

/-- **C4, amended.**  For every URL whose lightweight fetch succeeds with
*non-empty* HTML: if the HTML contains a known JS-framework marker (e.g.
`__NEXT_DATA__`) or its body text is shorter than 200 characters, the
dispatcher returns the render-fetcher result, discarding the lightweight
one; otherwise it returns the lightweight result with links and metadata
extracted by the static parse.  When the lightweight fetch succeeds with
empty HTML the content checks are skipped: the render fetcher is used if
and only if the URL contains a known JS-heavy keyword. -/
theorem claim_C4 (bodyText : String → String) (extract : String → String → ExtractData)
    (url : String) (r : LightResult) (pup : SmartResult) :
    (r.html ≠ "" →
      (jsIndicators.any (fun ind => containsSub r.html ind) = true ∨
        (jsTrim (bodyText r.html)).length < 200) →
      smartCrawl bodyText extract url (.success r) pup = pup) ∧
    (r.html ≠ "" →
      jsIndicators.any (fun ind => containsSub r.html ind) = false →
      ¬((jsTrim (bodyText r.html)).length < 200) →
      smartCrawl bodyText extract url (.success r) pup = lightResultOf r (extract r.html url)) ∧
    (r.html = "" →
      (smartCrawl bodyText extract url (.success r) pup = pup ∧
          needsJavaScriptRendering bodyText url r.html = true ∨
        smartCrawl bodyText extract url (.success r) pup = lightResultOf r (extract r.html url) ∧
          needsJavaScriptRendering bodyText url r.html =
            JS_HEAVY_SITES.any (fun k => containsSub (jsToLower url) k))) := by
  refine ⟨?_, ?_, ?_⟩
  · intro hne hjs
    have hneeds : needsJavaScriptRendering bodyText url r.html = true := by
      unfold needsJavaScriptRendering
      rw [if_pos hne]
      rcases hjs with h | h
      · simp [h]
      · simp [h]
    simp [smartCrawl, hneeds]
  · intro hne hmark hlen
    have hneeds : needsJavaScriptRendering bodyText url r.html = false := by
      unfold needsJavaScriptRendering
      rw [if_pos hne]
      simp [hmark, hlen]
    simp [smartCrawl, hneeds]
  · intro hempty
    have hneeds : needsJavaScriptRendering bodyText url r.html =
        JS_HEAVY_SITES.any (fun k => containsSub (jsToLower url) k) := by
      unfold needsJavaScriptRendering
      rw [if_neg (by simp [hempty])]
    by_cases hkw : JS_HEAVY_SITES.any (fun k => containsSub (jsToLower url) k) = true
    · exact Or.inl ⟨by simp [smartCrawl, hneeds, hkw], by rw [hneeds, hkw]⟩
    · refine Or.inr ⟨?_, hneeds⟩
      have : needsJavaScriptRendering bodyText url r.html = false := by
        rw [hneeds]; exact Bool.not_eq_true _ ▸ hkw
      simp [smartCrawl, this]

/-- Witness for C4: the `__NEXT_DATA__` marker triggers the render
fetcher; a marker-free page with a 200-character body keeps the
lightweight result. -/
theorem claim_C4_witness :
    smartCrawl (fun s => s) (fun _ _ => ⟨[], ""⟩) "https://a.com"
      (.success ⟨"<script>__NEXT_DATA__</script>", 200⟩) pupProbe = pupProbe ∧
    smartCrawl (fun _ => String.mk (List.replicate 200 'a')) (fun _ _ => ⟨["https://a.com/c"], "m"⟩)
      "https://a.com" (.success ⟨"<p>hi</p>", 200⟩) pupProbe =
      lightResultOf ⟨"<p>hi</p>", 200⟩ ⟨["https://a.com/c"], "m"⟩ :=
  ⟨(claim_C4 (fun s => s) (fun _ _ => ⟨[], ""⟩) "https://a.com"
      ⟨"<script>__NEXT_DATA__</script>", 200⟩ pupProbe).1 (by decide) (Or.inl (by decide)),
   (claim_C4 (fun _ => String.mk (List.replicate 200 'a')) (fun _ _ => ⟨["https://a.com/c"], "m"⟩)
      "https://a.com" ⟨"<p>hi</p>", 200⟩ pupProbe).2.1 (by decide) (by decide) (by decide)⟩

/-! ## The render fetcher (`crawlWithPuppeteer`) -/

/-- Oracles for the browser steps of `crawlWithPuppeteer` (htmlBuilder.js
lines 270-377).  `launch` is `puppeteer.launch` (used only when no shared
browser is supplied); `newPage` is `browser.newPage()`; `goto` covers
`setUserAgent`/`setViewport`/`page.goto`/`waitForTimeout`; `extract`
covers `page.content()` and the two `page.evaluate` calls.  An `.error`
models the corresponding `await` rejecting, which jumps to the `catch`
block. -/
structure PupEnv where
  launch : Except String Unit
  newPage : Except String Unit
  goto : Except String Unit
  extract : Except String Unit
  html : String
  links : List String
  metadata : String
deriving Repr

/-- Instrumented run of `crawlWithPuppeteer`: whether the function
launched a browser itself, whether it opened a page, whether that page was
closed before returning, whether the browser was closed (the `finally`
block), and the returned result. -/
structure PupRun where
  launchedLocally : Bool
  pageOpened : Bool
  pageClosed : Bool
  browserClosed : Bool
  result : SmartResult
deriving Repr, DecidableEq

/-- The `catch` block's return value (htmlBuilder.js lines 365-371). -/
def pupFail (msg : String) : SmartResult :=
  { success := false, html := "", links := [], metadata := "",
    statusCode := none, method := "puppeteer", error := msg }

/-- The success return value (lines 355-363); `[...new Set(links)]` keeps
the first occurrence of each link. -/
def pupSuccess (env : PupEnv) : SmartResult :=
  { success := true, html := env.html, links := env.links.eraseDups,
    metadata := env.metadata, statusCode := none, method := "puppeteer", error := "" }

/-- `crawlWithPuppeteer(url, browser)`, htmlBuilder.js lines 270-377.
`browserProvided` is whether the caller passed a shared browser handle
(`shouldCloseBrowser = !browser`).  Each exit records the `finally`
effect: the browser is closed only when `shouldCloseBrowser && localBrowser`,
i.e. when no handle was provided and the local launch succeeded.  Note
`page.close()` (line 351) sits on the success path only: the `catch`
return leaves the page open. -/
def crawlWithPuppeteer (env : PupEnv) (browserProvided : Bool) : PupRun :=
  match (if browserProvided then Except.ok () else env.launch) with
  | .error m =>
    { launchedLocally := false, pageOpened := false, pageClosed := false,
      browserClosed := false, result := pupFail m }
  | .ok _ =>
    match env.newPage with
    | .error m =>
      { launchedLocally := !browserProvided, pageOpened := false, pageClosed := false,
        browserClosed := !browserProvided, result := pupFail m }
    | .ok _ =>
      match env.goto with
      | .error m =>
        { launchedLocally := !browserProvided, pageOpened := true, pageClosed := false,
          browserClosed := !browserProvided, result := pupFail m }
      | .ok _ =>
        match env.extract with
        | .error m =>
          { launchedLocally := !browserProvided, pageOpened := true, pageClosed := false,
            browserClosed := !browserProvided, result := pupFail m }
        | .ok _ =>
          { launchedLocally := !browserProvided, pageOpened := true, pageClosed := true,
            browserClosed := !browserProvided, result := pupSuccess env }

/-- A run in which navigation times out after the page was opened. -/
def gotoTimeout : PupEnv :=
  { launch := Except.ok (), newPage := Except.ok (),
    goto := Except.error "Navigation timeout of 45000 ms exceeded",
    extract := Except.ok (), html := "", links := [], metadata := "" }

/-- A fully successful render run. -/
def pupAllOk : PupEnv :=
  { launch := Except.ok (), newPage := Except.ok (), goto := Except.ok (),
    extract := Except.ok (), html := "<p>r</p>", links := ["https://a.com/r"],
    metadata := "t" }

/-! ### Claim C9 -/

/-- **C9 (code bug).**  The claim says the page is closed before the call
returns on success *and on error alike*.  The code closes the page only on
the success path: on a navigation error with a caller-supplied shared
browser the page is opened, never closed, and the shared browser is (by
design) not closed either — the tab leaks.  The browser-ownership half of
the claim does hold: a locally-launched browser is closed even on error,
and a caller-supplied one never is. -/
theorem claim_C9 :
    (crawlWithPuppeteer pupAllOk true).pageOpened = true ∧
    (crawlWithPuppeteer pupAllOk true).pageClosed = true ∧
    (crawlWithPuppeteer gotoTimeout true).pageOpened = true ∧
    (crawlWithPuppeteer gotoTimeout true).pageClosed = false ∧
    (crawlWithPuppeteer gotoTimeout true).browserClosed = false ∧
    (crawlWithPuppeteer gotoTimeout false).pageClosed = false ∧
    (crawlWithPuppeteer gotoTimeout false).browserClosed = true ∧
    (crawlWithPuppeteer pupAllOk false).browserClosed = true := by
  refine ⟨rfl, rfl, rfl, rfl, rfl, rfl, rfl, rfl⟩

/-! ## The crawl engine (`recursiveCrawl` / `startSafeCrawl`) -/

/-- Ghost record of one dispatched fetch: the raw URL handed to
`smartCrawl`, its normalized key, the depth, the size of the visited set
at the moment of dispatch, and the (ghost) parent key and parent depth for
targets discovered as child links (`none` for the seed). -/
structure FetchInfo where
  url : String
  key : String
  depth : Nat
  sizeBefore : Nat
  parent : Option (String × Nat)
deriving Repr, DecidableEq

/-- Ghost trace events: a dispatched fetch, or a politeness sleep of
`ms` milliseconds. -/
inductive Event where
  | fetch (f : FetchInfo)
  | wait (ms : Nat)
deriving Repr, DecidableEq

/-- What one `await smartCrawl(url, browser)` does for a given URL, as the
engine observes it: either it returns a result, or it throws (the
situation `recursiveCrawl`'s own `try/catch` guards against, e.g. an
extraction-time exception escaping the dispatcher). -/
inductive SmartOutcome where
  | thrown (msg : String)
  | res (r : SmartResult)
deriving Repr, DecidableEq

/-- One element of `crawlResults` (htmlBuilder.js lines 537-556): the
fields the engine writes.  `timestamp`, `duration` and the metadata object
are omitted as claim-irrelevant runtime values. -/
structure CrawlEntry where
  url : String
  success : Bool
  error : Option String
  statusCode : Option Nat
  method : Option String
  depth : Nat
deriving Repr, DecidableEq

/-- The failure record pushed at lines 537-542 and 591-596. -/
def failEntry (url msg : String) (depth : Nat) : CrawlEntry :=
  { url := url, success := false, error := some msg,
    statusCode := none, method := none, depth := depth }

/-- The success record pushed at lines 547-556; `result.statusCode || 200`
defaults an absent status to 200. -/
def successEntry (url : String) (r : SmartResult) (depth : Nat) : CrawlEntry :=
  { url := url, success := true, error := none,
    statusCode := some (r.statusCode.getD 200),
    method := some r.method, depth := depth }

/-- The single entry a dispatch of `url` at `depth` produces, as a function
of the dispatcher's outcome. -/
def mkEntry (web : String → SmartOutcome) (url : String) (depth : Nat) : CrawlEntry :=
  match web url with
  | .thrown m => failEntry url m depth
  | .res r => if r.success then successEntry url r depth else failEntry url r.error depth

/-- The engine's mutable state: `visitedUrls` (a JS `Set`, modelled as its
insertion-ordered element list), `crawlResults`, and the ghost event
trace. -/
structure CrawlState where
  visited : List String
  results : List CrawlEntry
  trace : List Event
deriving Repr, DecidableEq

/-- JavaScript `s.startsWith(pre)`. -/
def jsStartsWith (s pre : String) : Bool :=
  decide (pre.data <+: s.data)

/-- The same-domain child filter of htmlBuilder.js lines 559-565:
```js
const normalized = normalizeUrl(link);
return normalized && normalized.startsWith(baseUrl) && !visitedUrls.has(normalized);
``` -/
def childFilter (baseUrl : String) (visited : List String) (link : String) : Bool :=
  match normalizeUrl link with
  | some n => jsStartsWith n baseUrl && !(decide (n ∈ visited))
  | none => false

/-- `CONFIG.DELAY_BETWEEN_REQUESTS` (htmlBuilder.js line 128). -/
def DELAY_BETWEEN_REQUESTS : Nat := 1500

/-- The two mutually recursive pieces of the engine:
`page parent url depth` is one call of `recursiveCrawl(url, depth, ...)`
(with the ghost parent), and `kids parentKey parentDepth urls` is the
`for (const childUrl of childUrls)` loop (lines 572-586) of the page whose
key is `parentKey`, dispatched at `parentDepth`. -/
inductive CrawlCall where
  | page (parent : Option (String × Nat)) (url : String) (depth : Nat)
  | kids (parentKey : String) (parentDepth : Nat) (urls : List String)

/-- The engine, htmlBuilder.js lines 516-598, as one step function over
`CrawlCall` (mutual recursion flattened; `fuel` only makes the recursion
structural — in the source the recursion terminates through the depth
guard, and every theorem below holds for every fuel value).
For a `page` call:
* the stop conditions `currentDepth > MAX_DEPTH || visited.size >= MAX_PAGES`,
  `!normalizedUrl || visited.has(normalizedUrl)` (lines 517-525);
* `visitedUrls.add(normalizedUrl)` (line 527), recorded as a fetch event;
* dispatch `smartCrawl` via the oracle `web` and push exactly one result
  (lines 532-556; the surrounding `try/catch` maps a throw to a failure
  record, lines 589-597);
* filter the extracted links to unvisited same-domain ones, cap at 10
  (lines 559-566), and recurse into the child loop when
  `currentDepth < MAX_DEPTH && childUrls.length > 0` (line 571).
For a `kids` call: stop when `visited.size >= MAX_PAGES` (line 573),
otherwise sleep `DELAY_BETWEEN_REQUESTS` (line 576) and recurse into the
child at `parentDepth + 1` (lines 578-585), then continue the loop. -/
def crawlStep (web : String → SmartOutcome) (maxD maxP : Nat) (baseUrl : String) :
    Nat → CrawlCall → CrawlState → CrawlState
  | 0, _, st => st
  | fuel + 1, CrawlCall.page parent url depth, st =>
    if depth > maxD ∨ st.visited.length ≥ maxP then st
    else
      match normalizeUrl url with
      | none => st
      | some key =>
        if key ∈ st.visited then st
        else
          let f : FetchInfo := ⟨url, key, depth, st.visited.length, parent⟩
          let st1 : CrawlState :=
            { st with visited := st.visited ++ [key], trace := st.trace ++ [Event.fetch f] }
          match web url with
          | SmartOutcome.thrown m =>
            { st1 with results := st1.results ++ [failEntry url m depth] }
          | SmartOutcome.res r =>
            if r.success = false then
              { st1 with results := st1.results ++ [failEntry url r.error depth] }
            else
              let st2 := { st1 with results := st1.results ++ [successEntry url r depth] }
              let childUrls := (r.links.filter (childFilter baseUrl st2.visited)).take 10
              if depth < maxD ∧ childUrls ≠ [] then
                crawlStep web maxD maxP baseUrl fuel (CrawlCall.kids key depth childUrls) st2
              else st2
  | _ + 1, CrawlCall.kids _ _ [], st => st
  | fuel + 1, CrawlCall.kids pk pd (c :: rest), st =>
    if st.visited.length ≥ maxP then st
    else
      let st1 : CrawlState := { st with trace := st.trace ++ [Event.wait DELAY_BETWEEN_REQUESTS] }
      let st2 := crawlStep web maxD maxP baseUrl fuel (CrawlCall.page (some (pk, pd)) c (pd + 1)) st1
      crawlStep web maxD maxP baseUrl fuel (CrawlCall.kids pk pd rest) st2

/-- `recursiveCrawl(startUrl, currentDepth, visitedUrls, baseUrl, browser,
crawlResults)` — the `page` entry point of `crawlStep`. -/
def recursiveCrawl (web : String → SmartOutcome) (maxD maxP : Nat) (baseUrl : String)
    (fuel : Nat) (parent : Option (String × Nat)) (url : String) (depth : Nat)
    (st : CrawlState) : CrawlState :=
  crawlStep web maxD maxP baseUrl fuel (CrawlCall.page parent url depth) st

/-- `CONFIG.MAX_DEPTH` (htmlBuilder.js line 125). -/
def MAX_DEPTH : Nat := 3

/-- `CONFIG.MAX_PAGES` (htmlBuilder.js line 126). -/
def MAX_PAGES : Nat := 50

/-- Fuel for the configured engine: any value large enough that the depth
guard, page budget and 10-child cap stop the recursion first (each call
consumes one unit; a run dispatches at most `MAX_PAGES` pages with at most
10 loop steps each). -/
def crawlFuel : Nat := 10000

/-- Oracles for the entry point's browser management: the outcome of
`puppeteer.launch(...)` (htmlBuilder.js lines 630-639) and of
`browser.close()` (lines 647-650).  A rejection of either reaches
`startSafeCrawl`'s catch block and is rethrown.  The `close` outcome is
fixed per run: when it rejects, the catch block's own
`if (browser) await browser.close()` (lines 667-669) rejects identically,
so that rejection is what propagates either way. -/
structure BrowserEnv where
  launch : Except String Unit
  close : Except String Unit

/-- The engine state `startSafeCrawl(startUrl)` builds when it gets as far
as calling `recursiveCrawl` (htmlBuilder.js lines 641-645) — that is, when
the seed parses *and* the browser launch succeeded: fresh visited set and
results, seed dispatched at depth 1, `baseUrl = new URL(startUrl).origin`.
`none` when the run aborts before any dispatch. -/
def startSafeCrawlRun (env : BrowserEnv) (web : String → SmartOutcome) (seed : String) :
    Option CrawlState :=
  match parseUrl seed, env.launch with
  | some p, Except.ok _ =>
    some (recursiveCrawl web MAX_DEPTH MAX_PAGES p.origin crawlFuel none seed 1 ⟨[], [], []⟩)
  | _, _ => none

/-- `startSafeCrawl` (htmlBuilder.js lines 608-673).  In order: an
unparseable seed URL throws `"Invalid starting URL provided."` before the
browser is launched and before any dispatch; a `puppeteer.launch`
rejection is rethrown by the catch block (the crawl never starts); after
the crawl — which itself never throws, every per-page error being
absorbed by `recursiveCrawl`'s `try/catch` — a `browser.close()`
rejection is likewise rethrown; otherwise the run's `crawlResults` are
returned.  (The console summary between close and return is
effect-free.) -/
def startSafeCrawl (env : BrowserEnv) (web : String → SmartOutcome) (seed : String) :
    Except String (List CrawlEntry) :=
  match parseUrl seed with
  | none => Except.error "Invalid starting URL provided."
  | some p =>
    match env.launch with
    | Except.error m => Except.error m
    | Except.ok _ =>
      let st := recursiveCrawl web MAX_DEPTH MAX_PAGES p.origin crawlFuel none seed 1 ⟨[], [], []⟩
      match env.close with
      | Except.error m => Except.error m
      | Except.ok _ => Except.ok st.results

/-! ### Trace checkers -/

/-- The fetch events of a trace, in dispatch order. -/
def fetches : List Event → List FetchInfo
  | [] => []
  | Event.fetch f :: r => f :: fetches r
  | Event.wait _ :: r => fetches r

def isFetch : Event → Bool
  | Event.fetch _ => true
  | Event.wait _ => false

/-- Every wait in the trace is the fixed 1.5-second politeness delay. -/
def waitOk : Event → Bool
  | Event.wait ms => ms == 1500
  | Event.fetch _ => true

/-- Whether a trace does not end in a fetch event. -/
def endsNotFetch : List Event → Bool
  | [] => true
  | [e] => !isFetch e
  | _ :: b :: t => endsNotFetch (b :: t)

/-- No two adjacent fetch events: between any two consecutively dispatched
fetches some other event (a politeness wait) intervenes. -/
def noFF : List Event → Bool
  | [] => true
  | [_] => true
  | a :: b :: t => !(isFetch a && isFetch b) && noFF (b :: t)

/-- The three dispatch preconditions of claim C2, checked against the
fetches `seen` so far, plus the ghost parent-depth relation:
the recorded visited-set size is the number of earlier dispatches, that
number is below max pages, the depth does not exceed max depth, the
normalized key was never dispatched before, and a child's depth is its
parent's depth plus one. -/
def dispatchPreOk (maxD maxP : Nat) (seen : List FetchInfo) (f : FetchInfo) : Bool :=
  decide (f.sizeBefore = seen.length) &&
  decide (seen.length < maxP) &&
  decide (f.depth ≤ maxD) &&
  seen.all (fun g => g.key != f.key) &&
  (match f.parent with
   | none => true
   | some (_, pd) => decide (f.depth = pd + 1))

/-- `dispatchPreOk` holds at every position of the dispatch sequence. -/
def checkDispatches (maxD maxP : Nat) : List FetchInfo → List FetchInfo → Bool
  | _, [] => true
  | seen, f :: rest => dispatchPreOk maxD maxP seen f && checkDispatches maxD maxP (seen ++ [f]) rest

/-! ### Trace checker lemmas -/

theorem fetches_append : ∀ (a b : List Event), fetches (a ++ b) = fetches a ++ fetches b
  | [], _ => rfl
  | Event.fetch f :: r, b => by simp [fetches, fetches_append r b]
  | Event.wait m :: r, b => by simp [fetches, fetches_append r b]

theorem endsNotFetch_append_one : ∀ (t : List Event) (e : Event),
    endsNotFetch (t ++ [e]) = !isFetch e
  | [], e => rfl
  | [a], e => rfl
  | a :: b :: t, e => by
    simpa [endsNotFetch] using endsNotFetch_append_one (b :: t) e

theorem noFF_append_one : ∀ (t : List Event) (e : Event),
    noFF (t ++ [e]) = (noFF t && (endsNotFetch t || !isFetch e))
  | [], e => by simp [noFF, endsNotFetch]
  | [a], e => by
    simp only [List.cons_append, List.nil_append, noFF, endsNotFetch]
    cases isFetch a <;> cases isFetch e <;> rfl
  | a :: b :: t, e => by
    have ih := noFF_append_one (b :: t) e
    show (!(isFetch a && isFetch b) && noFF ((b :: t) ++ [e])) = _
    rw [ih]
    show _ = ((!(isFetch a && isFetch b) && noFF (b :: t)) && (endsNotFetch (b :: t) || !isFetch e))
    rw [Bool.and_assoc]

theorem checkDispatches_append (maxD maxP : Nat) : ∀ (l : List FetchInfo) (seen f),
    checkDispatches maxD maxP seen (l ++ [f]) =
      (checkDispatches maxD maxP seen l && dispatchPreOk maxD maxP (seen ++ l) f)
  | [], seen, f => by simp [checkDispatches]
  | g :: l, seen, f => by
    show (dispatchPreOk maxD maxP seen g && checkDispatches maxD maxP (seen ++ [g]) (l ++ [f])) = _
    rw [checkDispatches_append maxD maxP l (seen ++ [g]) f, List.append_assoc,
      List.singleton_append, ← Bool.and_assoc]
    rfl

theorem length_filter_partition {α : Type} (p : α → Bool) (l : List α) :
    (l.filter p).length + (l.filter (fun a => !(p a))).length = l.length := by
  induction l with
  | nil => simp
  | cons a l ih => cases hpa : p a <;> simp [List.filter_cons, hpa] <;> omega

/-! ### The engine invariant -/

/-- Everything the engine maintains, at every reachable state:
* `keysEq`: the visited set is exactly the normalized keys of the
  dispatched fetches, in dispatch order;
* `nodup`: no key enters the visited set twice;
* `align`: `crawlResults` has exactly one entry per dispatched fetch — the
  entry `mkEntry` prescribes for that URL's dispatcher outcome;
* `preOk`: every dispatch satisfied the preconditions of `dispatchPreOk`
  at its moment;
* `chain`: no two fetches are adjacent in the trace;
* `waits`: every politeness wait is 1500 ms;
* `szLe`: the visited set never exceeds max pages. -/
structure EngineInv (web : String → SmartOutcome) (maxD maxP : Nat) (st : CrawlState) : Prop where
  keysEq : (fetches st.trace).map FetchInfo.key = st.visited
  nodup : st.visited.Nodup
  align : st.results = (fetches st.trace).map (fun f => mkEntry web f.url f.depth)
  preOk : checkDispatches maxD maxP [] (fetches st.trace) = true
  chain : noFF st.trace = true
  waits : st.trace.all waitOk = true
  szLe : st.visited.length ≤ maxP

/-- Precondition of a call: a `page` call happens either at the very start
or right after a politeness wait (never back-to-back with a fetch), with
the ghost parent depth consistent; a `kids` call needs nothing. -/
def callPre : CrawlCall → CrawlState → Prop
  | CrawlCall.page p _ depth, st =>
    endsNotFetch st.trace = true ∧ ∀ pk pd, p = some (pk, pd) → depth = pd + 1
  | CrawlCall.kids _ _ _, _ => True

theorem engineInv_init (web : String → SmartOutcome) (maxD maxP : Nat) :
    EngineInv web maxD maxP ⟨[], [], []⟩ := by
  refine ⟨rfl, List.nodup_nil, rfl, rfl, rfl, rfl, by simp⟩

/-- The state reached after recording one dispatch of `url` at `depth` and
its (unique) result entry satisfies the invariant again. -/
theorem engineInv_dispatch (web : String → SmartOutcome) (maxD maxP : Nat)
    (st : CrawlState) (url key : String) (depth : Nat) (parent : Option (String × Nat))
    (hinv : EngineInv web maxD maxP st)
    (hend : endsNotFetch st.trace = true)
    (hparent : ∀ pk pd, parent = some (pk, pd) → depth = pd + 1)
    (hdepth : depth ≤ maxD) (hlen : st.visited.length < maxP)
    (hmem : key ∉ st.visited) :
    EngineInv web maxD maxP
      ⟨st.visited ++ [key],
       st.results ++ [mkEntry web url depth],
       st.trace ++ [Event.fetch ⟨url, key, depth, st.visited.length, parent⟩]⟩ := by
  have hf : fetches (st.trace ++ [Event.fetch ⟨url, key, depth, st.visited.length, parent⟩]) =
      fetches st.trace ++ [⟨url, key, depth, st.visited.length, parent⟩] := by
    rw [fetches_append]; rfl
  have hsize : (fetches st.trace).length = st.visited.length := by
    rw [← hinv.keysEq, List.length_map]
  refine ⟨?_, ?_, ?_, ?_, ?_, ?_, ?_⟩
  · rw [hf, List.map_append, hinv.keysEq]; rfl
  · rw [List.nodup_append]
    exact ⟨hinv.nodup, List.nodup_singleton _, by simpa [List.disjoint_singleton] using hmem⟩
  · rw [hf, List.map_append, hinv.align]; rfl
  · rw [hf, checkDispatches_append, Bool.and_eq_true]
    refine ⟨hinv.preOk, ?_⟩
    unfold dispatchPreOk
    simp only [List.nil_append, Bool.and_eq_true, decide_eq_true_eq]
    refine ⟨⟨⟨⟨hsize.symm, hsize ▸ hlen⟩, hdepth⟩, ?_⟩, ?_⟩
    · rw [List.all_eq_true]
      intro g hg
      simp only [bne_iff_ne, ne_eq]
      intro hgk
      apply hmem
      rw [← hinv.keysEq, ← hgk]
      exact List.mem_map_of_mem FetchInfo.key hg
    · cases hp : parent with
      | none => simp
      | some q =>
        rcases q with ⟨pk, pd⟩
        simpa using hparent pk pd hp
  · rw [noFF_append_one, hinv.chain, hend]; rfl
  · rw [List.all_append, hinv.waits]; rfl
  · simpa using hlen

/-- Appending a politeness wait preserves the invariant. -/
theorem engineInv_wait (web : String → SmartOutcome) (maxD maxP : Nat) (st : CrawlState)
    (hinv : EngineInv web maxD maxP st) :
    EngineInv web maxD maxP
      { st with trace := st.trace ++ [Event.wait DELAY_BETWEEN_REQUESTS] } := by
  refine ⟨?_, hinv.nodup, ?_, ?_, ?_, ?_, hinv.szLe⟩
  · rw [fetches_append]; simpa [fetches] using hinv.keysEq
  · rw [fetches_append]; simpa [fetches] using hinv.align
  · rw [fetches_append]; simpa [fetches] using hinv.preOk
  · rw [noFF_append_one, hinv.chain]; simp [isFetch]
  · rw [List.all_append, hinv.waits]; simp [waitOk, DELAY_BETWEEN_REQUESTS]

/-- Main preservation theorem: from any state satisfying the engine
invariant, any `crawlStep` call satisfying its precondition produces a
state satisfying the invariant again — for every fuel value. -/
theorem crawlStep_inv (web : String → SmartOutcome) (maxD maxP : Nat) (baseUrl : String) :
    ∀ (fuel : Nat) (call : CrawlCall) (st : CrawlState),
      EngineInv web maxD maxP st → callPre call st →
      EngineInv web maxD maxP (crawlStep web maxD maxP baseUrl fuel call st) := by
  intro fuel
  induction fuel with
  | zero =>
    intro call st hinv _
    simpa [crawlStep] using hinv
  | succ fuel ih =>
    intro call st hinv hpre
    cases call with
    | page parent url depth =>
      obtain ⟨hend, hparent⟩ := hpre
      simp only [crawlStep]
      split
      · exact hinv
      next hguard =>
      split
      · exact hinv
      next key hkey =>
      split
      · exact hinv
      next hmem =>
      have hdepth : depth ≤ maxD := by omega
      have hlen : st.visited.length < maxP := by omega
      have hdisp := engineInv_dispatch web maxD maxP st url key depth parent
        hinv hend hparent hdepth hlen hmem
      split
      next m hweb =>
        have hmk : mkEntry web url depth = failEntry url m depth := by
          simp [mkEntry, hweb]
        rw [← hmk] at *
        exact hdisp
      next r hweb =>
        split
        next hsucc =>
          have hmk : mkEntry web url depth = failEntry url r.error depth := by
            simp [mkEntry, hweb, hsucc]
          rw [← hmk] at *
          exact hdisp
        next hsucc =>
          have hsucc' : r.success = true := by
            revert hsucc; cases r.success <;> simp
          have hmk : mkEntry web url depth = successEntry url r depth := by
            simp [mkEntry, hweb, hsucc']
          rw [← hmk] at *
          split
          next hkids => exact ih _ _ hdisp trivial
          next hkids => exact hdisp
    | kids pk pd urls =>
      cases urls with
      | nil => simpa [crawlStep] using hinv
      | cons c rest =>
        simp only [crawlStep]
        split
        · exact hinv
        next hguard =>
        have hinv1 := engineInv_wait web maxD maxP st hinv
        have hpre1 : callPre (CrawlCall.page (some (pk, pd)) c (pd + 1))
            { st with trace := st.trace ++ [Event.wait DELAY_BETWEEN_REQUESTS] } := by
          refine ⟨?_, ?_⟩
          · rw [endsNotFetch_append_one]; rfl
          · intro pk' pd' h
            injection h with h
            cases h
            rfl
        have h2 := ih (CrawlCall.page (some (pk, pd)) c (pd + 1)) _ hinv1 hpre1
        exact ih (CrawlCall.kids pk pd rest) _ h2 trivial

/-- The invariant holds at the end of every `recursiveCrawl` run started
from a fresh state. -/
theorem recursiveCrawl_inv (web : String → SmartOutcome) (maxD maxP : Nat)
    (baseUrl : String) (fuel : Nat) (seed : String) :
    EngineInv web maxD maxP (recursiveCrawl web maxD maxP baseUrl fuel none seed 1 ⟨[], [], []⟩) :=
  crawlStep_inv web maxD maxP baseUrl fuel (CrawlCall.page none seed 1) ⟨[], [], []⟩
    (engineInv_init web maxD maxP) ⟨rfl, by intro _ _ h; cases h⟩

/-! ### Claim C1 -/

/-- **C1.**  For every crawl run (any site behavior `web`, any configured
budgets, any fuel): a normalized URL key enters the visited set at most
once (`Nodup`), no normalized key is ever dispatched twice (the dispatched
keys are `Nodup`), and at termination the size of the visited set equals
the number of successful outcomes plus the number of failed outcomes in
`crawlResults`. -/
theorem claim_C1 (web : String → SmartOutcome) (maxD maxP fuel : Nat) (baseUrl seed : String) :
    (recursiveCrawl web maxD maxP baseUrl fuel none seed 1 ⟨[], [], []⟩).visited.Nodup ∧
    ((fetches (recursiveCrawl web maxD maxP baseUrl fuel none seed 1 ⟨[], [], []⟩).trace).map
      FetchInfo.key).Nodup ∧
    (recursiveCrawl web maxD maxP baseUrl fuel none seed 1 ⟨[], [], []⟩).visited.length =
      ((recursiveCrawl web maxD maxP baseUrl fuel none seed 1 ⟨[], [], []⟩).results.filter
        (fun e => e.success)).length +
      ((recursiveCrawl web maxD maxP baseUrl fuel none seed 1 ⟨[], [], []⟩).results.filter
        (fun e => !e.success)).length := by
  have hinv := recursiveCrawl_inv web maxD maxP baseUrl fuel seed
  refine ⟨hinv.nodup, ?_, ?_⟩
  · rw [hinv.keysEq]; exact hinv.nodup
  · rw [length_filter_partition, hinv.align, List.length_map, ← hinv.keysEq, List.length_map]

/-! ### Claim C2 -/

/-- **C2.**  Every dispatch satisfies, at the moment of dispatch (before
the fetch): its key is not in the visited set, the dispatched count is
below max pages, and its depth does not exceed max depth
(`checkDispatches` walks the dispatch sequence re-checking all three,
together with the recorded dispatch count and the child-depth relation
`depth = parent depth + 1`); and the total number of dispatched targets
never exceeds max pages, whatever links remain undispatched. -/
theorem claim_C2 (web : String → SmartOutcome) (maxD maxP fuel : Nat) (baseUrl seed : String) :
    checkDispatches maxD maxP []
      (fetches (recursiveCrawl web maxD maxP baseUrl fuel none seed 1 ⟨[], [], []⟩).trace) = true ∧
    (recursiveCrawl web maxD maxP baseUrl fuel none seed 1 ⟨[], [], []⟩).visited.length ≤ maxP :=
  ⟨(recursiveCrawl_inv web maxD maxP baseUrl fuel seed).preOk,
   (recursiveCrawl_inv web maxD maxP baseUrl fuel seed).szLe⟩

/-! ### Claim C8 -/

/-- **C8.**  In every run's event trace, no two dispatched fetches are
adjacent — between every pair of consecutively dispatched fetches,
including between a parent's fetch and its first child's, at least one
politeness sleep intervenes — and every sleep in the trace is the fixed
1500 ms delay. -/
theorem claim_C8 (web : String → SmartOutcome) (maxD maxP fuel : Nat) (baseUrl seed : String) :
    noFF (recursiveCrawl web maxD maxP baseUrl fuel none seed 1 ⟨[], [], []⟩).trace = true ∧
    (recursiveCrawl web maxD maxP baseUrl fuel none seed 1 ⟨[], [], []⟩).trace.all waitOk = true :=
  ⟨(recursiveCrawl_inv web maxD maxP baseUrl fuel seed).chain,
   (recursiveCrawl_inv web maxD maxP baseUrl fuel seed).waits⟩

/-! ### Claim C7 -/

/-- A successful lightweight page result with the given html and links. -/
def okPage (html : String) (links : List String) : SmartResult :=
  { success := true, html := html, links := links, metadata := "",
    statusCode := some 200, method := "axios", error := "" }

/-- A small concrete site: the seed links to a page whose processing
throws and to a healthy leaf page. -/
def webW : String → SmartOutcome := fun u =>
  if u = "https://a.com" then
    SmartOutcome.res (okPage "<p>seed page</p>" ["https://a.com/bad", "https://a.com/ok"])
  else if u = "https://a.com/bad" then
    SmartOutcome.thrown "boom"
  else
    SmartOutcome.res (okPage "<p>leaf</p>" [])

def stW : CrawlState :=
  recursiveCrawl webW MAX_DEPTH MAX_PAGES "https://a.com" crawlFuel none "https://a.com" 1
    ⟨[], [], []⟩

/-- A run whose browser launches and closes normally. -/
def envOk : BrowserEnv := { launch := Except.ok (), close := Except.ok () }

/-- A run in which `puppeteer.launch` rejects. -/
def envLaunchFail : BrowserEnv :=
  { launch := Except.error "Failed to launch the browser process!", close := Except.ok () }

/-- **C7, counterexample.**  An unparseable seed is *not* the only error
the crawl entry point propagates: with a perfectly parseable seed, a
`puppeteer.launch` rejection reaches `startSafeCrawl`'s catch block and is
rethrown to the caller (htmlBuilder.js lines 630-639, 664-671). -/
theorem claim_C7_counterexample :
    parseUrl "https://a.com" ≠ none ∧
    startSafeCrawl envLaunchFail webW "https://a.com" =
      Except.error "Failed to launch the browser process!" := by
  refine ⟨by decide, rfl⟩

/-- **C7, amended.**  `startSafeCrawl` throws exactly for the run-level
failures: an unparseable seed URL (throwing
`"Invalid starting URL provided."` before the browser is launched and
before any dispatch), a browser-launch rejection (before any dispatch),
or a browser-close rejection after the crawl — never for a per-page
error.  In every run that starts, each dispatched target yields exactly
one recorded outcome, prescribed by `mkEntry`: a dispatcher result with
`success = false` *and* an exception thrown during a page's processing
both become a recorded `success = false` entry (never a propagated
exception), and the engine goes on to dispatch the remaining targets. -/
theorem claim_C7 (env : BrowserEnv) (web : String → SmartOutcome) (seed : String) :
    ((∃ m, startSafeCrawl env web seed = Except.error m) ↔
      (parseUrl seed = none ∨ (∃ m, env.launch = Except.error m) ∨
        (∃ m, env.close = Except.error m))) ∧
    (parseUrl seed = none →
      startSafeCrawl env web seed = Except.error "Invalid starting URL provided." ∧
      startSafeCrawlRun env web seed = none) ∧
    ((∃ m, env.launch = Except.error m) → startSafeCrawlRun env web seed = none) ∧
    (∀ st, startSafeCrawlRun env web seed = some st →
      st.results = (fetches st.trace).map (fun f => mkEntry web f.url f.depth)) := by
  rcases hp : parseUrl seed with _ | p
  · refine ⟨⟨fun _ => Or.inl rfl, fun _ => ⟨"Invalid starting URL provided.", ?_⟩⟩, ?_, ?_, ?_⟩
    · simp [startSafeCrawl, hp]
    · exact fun _ => ⟨by simp [startSafeCrawl, hp], by simp [startSafeCrawlRun, hp]⟩
    · rintro ⟨m, hm⟩
      simp [startSafeCrawlRun, hp]
    · intro st hst
      simp [startSafeCrawlRun, hp] at hst
  · refine ⟨?_, fun h => Option.noConfusion h, ?_, ?_⟩
    · rcases hl : env.launch with m | u
      · constructor
        · intro _
          exact Or.inr (Or.inl ⟨m, rfl⟩)
        · intro _
          exact ⟨m, by simp [startSafeCrawl, hp, hl]⟩
      · rcases hc : env.close with m | v
        · constructor
          · intro _
            exact Or.inr (Or.inr ⟨m, rfl⟩)
          · intro _
            exact ⟨m, by simp [startSafeCrawl, hp, hl, hc]⟩
        · constructor
          · rintro ⟨m, hm⟩
            simp [startSafeCrawl, hp, hl, hc] at hm
          · rintro (h | ⟨m, hm⟩ | ⟨m, hm⟩)
            · exact absurd h (by simp)
            · exact Except.noConfusion hm
            · exact Except.noConfusion hm
    · rintro ⟨m, hm⟩
      simp [startSafeCrawlRun, hp, hm]
    · intro st hst
      rcases hl : env.launch with m | u
      · simp [startSafeCrawlRun, hp, hl] at hst
      · simp only [startSafeCrawlRun, hp, hl] at hst
        rw [Option.some.injEq] at hst
        rw [← hst]
        exact (recursiveCrawl_inv web MAX_DEPTH MAX_PAGES p.origin crawlFuel seed).align

/-- Witness for C7: an unparseable seed throws before any dispatch; a
launch rejection throws; and in the concrete run over `webW` every
dispatch — including the one whose processing throws — has its prescribed
recorded outcome. -/
theorem claim_C7_witness :
    (startSafeCrawl envOk webW "nonsense" = Except.error "Invalid starting URL provided." ∧
      startSafeCrawlRun envOk webW "nonsense" = none) ∧
    (∃ m, startSafeCrawl envLaunchFail webW "https://a.com" = Except.error m) ∧
    stW.results = (fetches stW.trace).map (fun f => mkEntry webW f.url f.depth) :=
  ⟨(claim_C7 envOk webW "nonsense").2.1 (by decide),
   (claim_C7 envLaunchFail webW "https://a.com").1.mpr (Or.inr (Or.inl ⟨_, rfl⟩)),
   (claim_C7 envOk webW "https://a.com").2.2.2 stW rfl⟩

end SitemapSite
